import Mathlib

/-!
Verification development for the places-analytics pipeline
(geo-search client, ingestion upsert, heuristic classifier, website
enricher, heatmap engine, scoring engine).

Python numerics are embedded over `ℚ` (exact arithmetic; the float
operations used by the source are sums, min/max, comparisons and
divisions of small decimal constants) and over `ℝ` where the source uses
transcendental functions (`math.log10`).  Python strings are embedded as
`String`/`List Char` with explicit ASCII lower-casing, and Python
truthiness (`if x:`) is modelled explicitly for each type.
-/

attribute [local semireducible] Rat.add Rat.mul Rat.sub Rat.inv

/-! ## Python-semantics helpers -/

/-- ASCII lower-casing of one character; models Python `str.lower` on the
ASCII letters (all string constants compared by the pipeline are ASCII). -/
def asciiLowerChar (c : Char) : Char :=
  if 'A' ≤ c ∧ c ≤ 'Z' then Char.ofNat (c.toNat + 32) else c

/-- ASCII lower-casing of a string (Python `s.lower()`). -/
def asciiLower (s : String) : String :=
  String.mk (s.toList.map asciiLowerChar)

/-- Substring containment, Python `needle in hay` on `str`. -/
def strContains (hay needle : String) : Bool :=
  hay.toList.tails.any (fun t => needle.toList.isPrefixOf t)

/-- Executable floor of a rational (`⌊q⌋`). -/
def qFloor (q : ℚ) : ℤ :=
  q.num.fdiv q.den

/-- Executable ceiling of a rational (`⌈q⌉`). -/
def qCeil (q : ℚ) : ℤ :=
  -qFloor (-q)

/-- Python `int(x)` on a float value: truncation toward zero. -/
def pyInt (q : ℚ) : ℤ :=
  if 0 ≤ q then qFloor q else qCeil q

/-- Python `round(x)` to an integer: round-half-to-even (banker's
rounding), as the built-in `round` does on floats. -/
def pyRoundInt (q : ℚ) : ℤ :=
  let f := qFloor q
  let r := q - f
  if r < 1/2 then f
  else if 1/2 < r then f + 1
  else if f % 2 = 0 then f else f + 1

/-- Python `round(x, 3)`: round to three decimal places. -/
def pyRound3 (q : ℚ) : ℚ :=
  (pyRoundInt (q * 1000) : ℚ) / 1000

/-- Clamp a value into `[0, 1]`, i.e. `max(0.0, min(1.0, x))`. -/
def clamp01 (q : ℚ) : ℚ :=
  max 0 (min 1 q)

theorem qFloor_eq (q : ℚ) : qFloor q = ⌊q⌋ := by
  rw [Rat.floor_def]
  exact Int.fdiv_eq_ediv _ (by positivity)

theorem qCeil_eq (q : ℚ) : qCeil q = ⌈q⌉ := by
  rw [qCeil, qFloor_eq, Int.floor_neg, neg_neg]

/-- Python truthiness of an optional integer: `None` and `0` are falsy. -/
def intTruthy : Option ℤ → Bool
  | none => false
  | some n => n != 0

/-- Python truthiness of an optional string: `None` and `""` are falsy. -/
def strTruthy : Option String → Bool
  | none => false
  | some s => s != ""

/-- Python `x or ""` for an optional string. -/
def orEmpty : Option String → String
  | none => ""
  | some s => s

/-- Python `str(x)` for an optional string (`str(None)` is `"None"`). -/
def pyStr : Option String → String
  | none => "None"
  | some s => s

/-! ## Data model: the canonical `Place` listing row -/

/-- Stored opening-hours summary (the flattened `opening_hours` JSON). -/
structure OpeningHours where
  open_now : Option Bool
  weekday_text : List String
deriving DecidableEq

/-- Canonical listing row (the `places` table / ORM `Place`).
JSON payloads that the pipeline never inspects (`address_components`)
are kept as opaque strings. -/
structure Place where
  id : ℕ
  place_id : String
  name : Option String
  formatted_address : Option String
  latitude : Option ℚ
  longitude : Option ℚ
  rating : Option ℚ
  user_ratings_total : Option ℤ
  formatted_phone_number : Option String
  website : Option String
  opening_hours : Option OpeningHours
  address_components : Option String
  types : Option (List String)
  business_status : Option String
  price_level : Option ℤ
  classification : Option String
  classification_confidence : Option ℚ
  location_score : Option ℚ
  competitor_density : Option ℚ
  search_query : Option String
  search_location : Option String
  created_at : Option ℕ
  updated_at : Option ℕ
  enriched_at : Option ℕ
deriving DecidableEq

/-- An all-`none` / zero listing, convenient base for concrete examples. -/
def emptyPlace : Place :=
  ⟨0, "", none, none, none, none, none, none, none, none, none, none,
   none, none, none, none, none, none, none, none, none, none, none, none⟩

/-! ## Classifier (`BusinessClassifier.classify`) -/

/-- Fixed known-brand-name set `KNOWN_BRANDS` from the classifier. -/
def KNOWN_BRANDS : List String :=
  ["mcdonald", "starbucks", "subway", "burger king", "kfc", "pizza hut",
   "domino", "dunkin", "tim hortons", "wendy", "taco bell", "chick-fil-a",
   "papa john", "popeye", "five guys", "shake shack", "chipotle",
   "walmart", "target", "costco", "ikea", "h&m", "zara", "uniqlo",
   "nike", "adidas", "apple", "samsung", "microsoft", "google",
   "amazon", "carrefour", "lulu", "spinneys", "choithrams", "al maya",
   "hardee", "baskin robbins", "cold stone", "costa coffee", "caribou",
   "nando", "applebee", "chili", "olive garden", "outback",
   "marriott", "hilton", "hyatt", "sheraton", "radisson", "ibis",
   "holiday inn", "best western", "four seasons", "ritz carlton",
   "7-eleven", "circle k", "shell", "bp", "total", "adnoc", "enoc"]

/-- Python `\s` whitespace characters (ASCII range). -/
def isPySpace (c : Char) : Bool :=
  c = ' ' || c = '\t' || c = '\n' || c = '\r' || c = '\x0c' || c = '\x0b'

/-- ASCII decimal digit test (`\d`). -/
def isDigitChar (c : Char) : Bool :=
  '0' ≤ c && c ≤ '9'

/-- Head-is-a-digit test used by the keyword-number patterns. -/
def headIsDigit : List Char → Bool
  | [] => false
  | c :: _ => isDigitChar c

/-- Matches `\s*#?\d` at the head of the list (the tail of the
`store\s*#?\d` alternative of `CHAIN_PATTERNS`; `allowHash` is false for
the `unit\s*\d` / `location\s*\d` alternatives). -/
def numTail (allowHash : Bool) (l : List Char) : Bool :=
  let l1 := l.dropWhile isPySpace
  match l1 with
  | '#' :: l2 => if allowHash then headIsDigit l2 else false
  | _ => headIsDigit l1

/-- Does one alternative of `CHAIN_PATTERNS` match at this position of the
(lower-cased) text?  The pattern is
`(franchise|chain|branch|outlet|store\s*#?\d|unit\s*\d|location\s*\d)`
with `re.IGNORECASE`. -/
def chainPatternAt (l : List Char) : Bool :=
  "franchise".toList.isPrefixOf l ||
  "chain".toList.isPrefixOf l ||
  "branch".toList.isPrefixOf l ||
  "outlet".toList.isPrefixOf l ||
  ("store".toList.isPrefixOf l && numTail true (l.drop 5)) ||
  ("unit".toList.isPrefixOf l && numTail false (l.drop 4)) ||
  ("location".toList.isPrefixOf l && numTail false (l.drop 8))

/-- Python `CHAIN_PATTERNS.search(text)`: some position matches. -/
def chainPatternSearch (s : String) : Bool :=
  (asciiLower s).toList.tails.any chainPatternAt

/-- Brand-style website-domain indicator set. -/
def BRAND_DOMAIN_INDICATORS : List String :=
  [".com", ".co", ".global", ".international", ".inc"]

/-- Country-code TLD set that counts against the brand score. -/
def CC_TLDS : List String :=
  [".ae", ".uk", ".in", ".ph", ".pk"]

/-- Brand-type category tags. -/
def BRAND_TYPES : List String :=
  ["shopping_mall", "department_store", "supermarket", "gas_station"]

/-- Local-type category tags. -/
def LOCAL_TYPES : List String :=
  ["cafe", "bakery", "hair_care", "laundry", "florist"]

/-- Number of words of Python `s.split()` (split on runs of whitespace,
empty pieces discarded); `inWord` records whether the previous character
was part of a word. -/
def wordCountAux : List Char → Bool → ℕ
  | [], _ => 0
  | c :: rest, inWord =>
    if isPySpace c then wordCountAux rest false
    else (if inWord then 0 else 1) + wordCountAux rest true

/-- Python `len(s.split())`. -/
def wordCount (s : String) : ℕ :=
  wordCountAux s.toList false

/-- Signal 1: known brand name match (`+1.0`, at most once). -/
def signal1 (p : Place) : ℚ :=
  if KNOWN_BRANDS.any (fun b => strContains (asciiLower (orEmpty p.name)) b)
  then 1 else 0

/-- Signal 2: review-count tiers (note Python truthiness: a review count
of `0` takes the `else` branch). -/
def signal2 (p : Place) : ℚ :=
  if intTruthy p.user_ratings_total then
    match p.user_ratings_total with
    | none => 0
    | some n =>
      if n > 1000 then 8/10
      else if n > 500 then 5/10
      else if n > 100 then 2/10
      else 0
  else 0

/-- Signal 3: chain/franchise pattern match over
`f"{place.name} {place.formatted_address or ''}"` (`+0.7`). -/
def signal3 (p : Place) : ℚ :=
  if chainPatternSearch (pyStr p.name ++ " " ++ orEmpty p.formatted_address)
  then 7/10 else 0

/-- Signal 4: website-domain heuristics (`+0.3` brand indicator, `-0.2`
country-code TLD; both may apply). -/
def signal4 (p : Place) : ℚ :=
  if strTruthy p.website then
    let domain := asciiLower (orEmpty p.website)
    (if BRAND_DOMAIN_INDICATORS.any (fun ind => strContains domain ind)
     then 3/10 else 0) +
    (if CC_TLDS.any (fun tld => strContains domain tld)
     then -(2/10) else 0)
  else 0

/-- Signal 5: price level present (`is not None`) gives `+0.15`. -/
def signal5 (p : Place) : ℚ :=
  match p.price_level with
  | none => 0
  | some _ => 15/100

/-- Signal 6: category-tag analysis over `place.types or []`
(`+0.4` brand type, `-0.3` local type; both may apply). -/
def signal6 (p : Place) : ℚ :=
  let types := match p.types with
    | none => []
    | some l => l
  (if types.any (fun t => BRAND_TYPES.contains t) then 4/10 else 0) +
  (if types.any (fun t => LOCAL_TYPES.contains t) then -(3/10) else 0)

/-- Signal 7: name word count (`≤3` gives `+0.1`, `≥6` gives `-0.1`). -/
def signal7 (p : Place) : ℚ :=
  let words := wordCount (asciiLower (orEmpty p.name))
  if words ≤ 3 then 1/10
  else if words ≥ 6 then -(1/10)
  else 0

/-- Accumulated heuristic score of `BusinessClassifier.classify`. -/
def classifierScore (p : Place) : ℚ :=
  signal1 p + signal2 p + signal3 p + signal4 p + signal5 p + signal6 p +
    signal7 p

/-- Fixed normalisation constant: the sum of all positive signal maxima
(`1.0 + 0.8 + 0.7 + 0.3 + 0.15 + 0.4 + 0.1 = 3.45`). -/
def maxPossible : ℚ :=
  345/100

/-- Embedded `BusinessClassifier.classify`: returns the label and the
confidence rounded to three decimals.  The label is chosen by comparing
the unrounded clamped confidence with `0.30`, exactly as the source does
before `round(confidence, 3)` is returned. -/
def classify (p : Place) : String × ℚ :=
  (if clamp01 (classifierScore p / maxPossible) ≥ 3/10 then "brand" else "local",
   pyRound3 (clamp01 (classifierScore p / maxPossible)))

/-! ## C1: classifier output contract -/

theorem signal1_dyadic (p : Place) :
    ∃ k : ℤ, 0 ≤ k ∧ k ≤ 20 ∧ signal1 p = (k : ℚ)/20 := by
  unfold signal1
  split
  · exact ⟨20, by norm_num⟩
  · exact ⟨0, by norm_num⟩

theorem signal2_dyadic (p : Place) :
    ∃ k : ℤ, 0 ≤ k ∧ k ≤ 16 ∧ signal2 p = (k : ℚ)/20 := by
  unfold signal2
  split
  · cases p.user_ratings_total with
    | none => exact ⟨0, by norm_num⟩
    | some n =>
      simp only
      split
      · exact ⟨16, by norm_num⟩
      · split
        · exact ⟨10, by norm_num⟩
        · split
          · exact ⟨4, by norm_num⟩
          · exact ⟨0, by norm_num⟩
  · exact ⟨0, by norm_num⟩

theorem signal3_dyadic (p : Place) :
    ∃ k : ℤ, 0 ≤ k ∧ k ≤ 14 ∧ signal3 p = (k : ℚ)/20 := by
  unfold signal3
  split
  · exact ⟨14, by norm_num⟩
  · exact ⟨0, by norm_num⟩

theorem signal4_dyadic (p : Place) :
    ∃ k : ℤ, -4 ≤ k ∧ k ≤ 6 ∧ signal4 p = (k : ℚ)/20 := by
  unfold signal4
  split
  · simp only
    split <;> split
    · exact ⟨2, by norm_num⟩
    · exact ⟨6, by norm_num⟩
    · exact ⟨-4, by norm_num⟩
    · exact ⟨0, by norm_num⟩
  · exact ⟨0, by norm_num⟩

theorem signal5_dyadic (p : Place) :
    ∃ k : ℤ, 0 ≤ k ∧ k ≤ 3 ∧ signal5 p = (k : ℚ)/20 := by
  unfold signal5
  split
  · exact ⟨0, by norm_num⟩
  · exact ⟨3, by norm_num⟩

theorem signal6_dyadic (p : Place) :
    ∃ k : ℤ, -6 ≤ k ∧ k ≤ 8 ∧ signal6 p = (k : ℚ)/20 := by
  unfold signal6
  cases p.types <;> dsimp only <;> split_ifs
  · exact ⟨2, by norm_num⟩
  · exact ⟨8, by norm_num⟩
  · exact ⟨-6, by norm_num⟩
  · exact ⟨0, by norm_num⟩
  · exact ⟨2, by norm_num⟩
  · exact ⟨8, by norm_num⟩
  · exact ⟨-6, by norm_num⟩
  · exact ⟨0, by norm_num⟩

theorem signal7_dyadic (p : Place) :
    ∃ k : ℤ, -2 ≤ k ∧ k ≤ 2 ∧ signal7 p = (k : ℚ)/20 := by
  unfold signal7
  dsimp only
  split_ifs
  · exact ⟨2, by norm_num⟩
  · exact ⟨-2, by norm_num⟩
  · exact ⟨0, by norm_num⟩

theorem classifierScore_dyadic (p : Place) :
    ∃ n : ℤ, -12 ≤ n ∧ n ≤ 69 ∧ classifierScore p = (n : ℚ)/20 := by
  obtain ⟨k1, h1a, h1b, h1⟩ := signal1_dyadic p
  obtain ⟨k2, h2a, h2b, h2⟩ := signal2_dyadic p
  obtain ⟨k3, h3a, h3b, h3⟩ := signal3_dyadic p
  obtain ⟨k4, h4a, h4b, h4⟩ := signal4_dyadic p
  obtain ⟨k5, h5a, h5b, h5⟩ := signal5_dyadic p
  obtain ⟨k6, h6a, h6b, h6⟩ := signal6_dyadic p
  obtain ⟨k7, h7a, h7b, h7⟩ := signal7_dyadic p
  refine ⟨k1 + k2 + k3 + k4 + k5 + k6 + k7, by omega, by omega, ?_⟩
  rw [classifierScore, h1, h2, h3, h4, h5, h6, h7]
  push_cast
  ring

set_option maxRecDepth 4000 in
theorem classify_key :
    ∀ n ∈ Finset.Icc (-12 : ℤ) 69,
      (clamp01 ((n : ℚ)/20 / maxPossible) ≥ 3/10 ↔
        pyRound3 (clamp01 ((n : ℚ)/20 / maxPossible)) ≥ 3/10) ∧
      0 ≤ pyRound3 (clamp01 ((n : ℚ)/20 / maxPossible)) ∧
      pyRound3 (clamp01 ((n : ℚ)/20 / maxPossible)) ≤ 1 := by decide

/-- C1: for every listing, `classify` returns a confidence in `[0,1]`
equal to `clamp(score/3.45, 0, 1)` rounded to three decimals, a label
that is `"brand"` or `"local"`, and the returned label is `"brand"` if
and only if the returned (rounded) confidence is at least `0.30`. -/
theorem classifier_confidence_label_contract (p : Place) :
    0 ≤ (classify p).2 ∧ (classify p).2 ≤ 1 ∧
    ((classify p).1 = "brand" ∨ (classify p).1 = "local") ∧
    ((classify p).1 = "brand" ↔ (classify p).2 ≥ 3/10) ∧
    (classify p).2 = pyRound3 (clamp01 (classifierScore p / maxPossible)) := by
  obtain ⟨n, hn1, hn2, hs⟩ := classifierScore_dyadic p
  obtain ⟨hiff, hge, hle⟩ := classify_key n (Finset.mem_Icc.mpr ⟨hn1, hn2⟩)
  dsimp only [classify]
  rw [hs]
  by_cases h : clamp01 ((n : ℚ)/20 / maxPossible) ≥ 3/10
  · rw [if_pos h]
    exact ⟨hge, hle, Or.inl rfl, ⟨fun _ => hiff.mp h, fun _ => rfl⟩, rfl⟩
  · rw [if_neg h]
    refine ⟨hge, hle, Or.inr rfl, ?_, rfl⟩
    constructor
    · intro hcontr
      exact absurd hcontr (by decide)
    · intro hr
      exact absurd (hiff.mpr hr) h

/-! ## Email extraction (`WebsiteEnricher._extract_emails`) -/

/-- Character class `[a-zA-Z]`. -/
def isAsciiAlpha (c : Char) : Bool :=
  ('a' ≤ c && c ≤ 'z') || ('A' ≤ c && c ≤ 'Z')

/-- Local-part character class `[a-zA-Z0-9._%+\-]` of `EMAIL_REGEX`. -/
def isLocalChar (c : Char) : Bool :=
  isAsciiAlpha c || isDigitChar c || c = '.' || c = '_' || c = '%' ||
    c = '+' || c = '-'

/-- Domain-part character class `[a-zA-Z0-9.\-]` of `EMAIL_REGEX`. -/
def isDomChar (c : Char) : Bool :=
  isAsciiAlpha c || isDigitChar c || c = '.' || c = '-'

/-- Backtracking of the greedy `[a-zA-Z0-9.\-]+` before `\.[a-zA-Z]{2,}`:
the engine tries the largest split point first and gives one character
back at a time.  `j + 1` is the candidate index of the dot inside the
maximal domain-class run; returns the dot index and the length of the
greedy `[a-zA-Z]{2,}` match after it. -/
def bestSplit (run : List Char) : ℕ → Option (ℕ × ℕ)
  | 0 => none
  | j + 1 =>
    let tld := ((run.drop (j + 2)).takeWhile isAsciiAlpha).length
    if run.getD (j + 1) ' ' = '.' ∧ 2 ≤ tld then some (j + 1, tld)
    else bestSplit run j

/-- Attempts to match
`[a-zA-Z0-9._%+\-]+@[a-zA-Z0-9.\-]+\.[a-zA-Z]{2,}` at the head of `l`,
returning the length of the match (greedy with backtracking, exactly the
leftmost match the `re` engine would produce at this position). -/
def tryMatch (l : List Char) : Option ℕ :=
  let loc := (l.takeWhile isLocalChar).length
  if loc = 0 then none
  else
    match l.drop loc with
    | '@' :: rest =>
      let run := rest.takeWhile isDomChar
      match bestSplit run (run.length - 1) with
      | some (j, tld) => some (loc + 1 + j + 1 + tld)
      | none => none
    | _ => none

/-- Left-to-right non-overlapping scan of `EMAIL_REGEX.findall`; the fuel
is an upper bound on the number of characters still to be consumed, so
`scanGo l.length l` scans the whole list. -/
def scanGo : ℕ → List Char → List (List Char)
  | 0, _ => []
  | _, [] => []
  | fuel + 1, c :: rest =>
    match tryMatch (c :: rest) with
    | some n => (c :: rest).take n :: scanGo fuel ((c :: rest).drop n)
    | none => scanGo fuel rest

/-- Python `EMAIL_REGEX.findall(html)`. -/
def scanEmails (l : List Char) : List (List Char) :=
  scanGo l.length l

/-- Fixed placeholder/test/SaaS-widget domain exclusion list. -/
def EXCLUDED_EMAIL_PATTERNS : List String :=
  ["example.com", "domain.com", "email.com", "test.com",
   "yoursite.com", "website.com", "sentry.io", "wixpress.com"]

/-- Image-file extensions whose "addresses" are discarded. -/
def IMAGE_EXTS : List String :=
  [".png", ".jpg", ".jpeg", ".gif", ".svg", ".webp"]

/-- Python `email_lower.split("@")[1] if "@" in email_lower else ""`:
the text strictly between the first and the second `@`. -/
def emailDomain (s : String) : String :=
  String.mk (((s.toList.dropWhile (fun c => c ≠ '@')).drop 1).takeWhile
    (fun c => c ≠ '@'))

/-- Test for an address ending in an image-file extension. -/
def isImageEmail (s : String) : Bool :=
  IMAGE_EXTS.any (fun ext => ext.toList.isSuffixOf s.toList)

/-- Excluded-domain test: substring containment (`exc in domain`) of any
excluded entry in the address domain. -/
def isExcludedDomain (s : String) : Bool :=
  EXCLUDED_EMAIL_PATTERNS.any (fun exc => strContains (emailDomain s) exc)

/-- One step of the cleaning loop of `_extract_emails`. -/
def cleanStep (cleaned : List String) (email : String) : List String :=
  let el := asciiLower email
  if isImageEmail el then cleaned
  else if isExcludedDomain el then cleaned
  else if el ∈ cleaned then cleaned else cleaned ++ [el]

/-- Embedded `_extract_emails`: regex findall, set dedup, lower-casing,
image-extension and excluded-domain filters; the returned Python set is
represented as a duplicate-free list. -/
def extractEmails (html : String) : List String :=
  (((scanEmails html.toList).map String.mk).dedup).foldl cleanStep []

/-! ## C7 / C10: email extraction contract -/

theorem cleanStep_eq (acc : List String) (m : String) :
    cleanStep acc m =
      if isImageEmail (asciiLower m) then acc
      else if isExcludedDomain (asciiLower m) then acc
      else if asciiLower m ∈ acc then acc else acc ++ [asciiLower m] := rfl

theorem cleanFold_spec (raw : List String) :
    ∀ acc : List String, acc.Nodup →
    (raw.foldl cleanStep acc).Nodup ∧
    ∀ e, e ∈ raw.foldl cleanStep acc ↔
      e ∈ acc ∨ ((∃ m, m ∈ raw ∧ asciiLower m = e) ∧ isImageEmail e = false ∧
        isExcludedDomain e = false) := by
  induction raw with
  | nil =>
    intro acc hacc
    refine ⟨hacc, fun e => ?_⟩
    simp
  | cons m raw ih =>
    intro acc hacc
    simp only [List.foldl_cons, cleanStep_eq]
    split_ifs with h1 h2 h3
    · obtain ⟨hnd, hmem⟩ := ih acc hacc
      refine ⟨hnd, fun e => ?_⟩
      rw [hmem e]
      constructor
      · rintro (h | ⟨⟨m', hm', he⟩, hf1, hf2⟩)
        · exact Or.inl h
        · exact Or.inr ⟨⟨m', List.mem_cons_of_mem _ hm', he⟩, hf1, hf2⟩
      · rintro (h | ⟨⟨m', hm', he⟩, hf1, hf2⟩)
        · exact Or.inl h
        · rcases List.mem_cons.mp hm' with rfl | hm'
          · rw [he] at h1
            simp [h1] at hf1
          · exact Or.inr ⟨⟨m', hm', he⟩, hf1, hf2⟩
    · obtain ⟨hnd, hmem⟩ := ih acc hacc
      refine ⟨hnd, fun e => ?_⟩
      rw [hmem e]
      constructor
      · rintro (h | ⟨⟨m', hm', he⟩, hf1, hf2⟩)
        · exact Or.inl h
        · exact Or.inr ⟨⟨m', List.mem_cons_of_mem _ hm', he⟩, hf1, hf2⟩
      · rintro (h | ⟨⟨m', hm', he⟩, hf1, hf2⟩)
        · exact Or.inl h
        · rcases List.mem_cons.mp hm' with rfl | hm'
          · rw [he] at h2
            simp [h2] at hf2
          · exact Or.inr ⟨⟨m', hm', he⟩, hf1, hf2⟩
    · obtain ⟨hnd, hmem⟩ := ih acc hacc
      refine ⟨hnd, fun e => ?_⟩
      rw [hmem e]
      constructor
      · rintro (h | ⟨⟨m', hm', he⟩, hf1, hf2⟩)
        · exact Or.inl h
        · exact Or.inr ⟨⟨m', List.mem_cons_of_mem _ hm', he⟩, hf1, hf2⟩
      · rintro (h | ⟨⟨m', hm', he⟩, hf1, hf2⟩)
        · exact Or.inl h
        · rcases List.mem_cons.mp hm' with rfl | hm'
          · exact Or.inl (he ▸ h3)
          · exact Or.inr ⟨⟨m', hm', he⟩, hf1, hf2⟩
    · have hacc2 : (acc ++ [asciiLower m]).Nodup := by
        simp [List.nodup_append, hacc, h3]
      obtain ⟨hnd, hmem⟩ := ih (acc ++ [asciiLower m]) hacc2
      refine ⟨hnd, fun e => ?_⟩
      rw [hmem e]
      constructor
      · rintro (h | ⟨⟨m', hm', he⟩, hf1, hf2⟩)
        · rcases List.mem_append.mp h with h | h
          · exact Or.inl h
          · have he : e = asciiLower m := by simpa using h
            subst he
            refine Or.inr ⟨⟨m, List.mem_cons_self _ _, rfl⟩, ?_, ?_⟩
            · simpa using h1
            · simpa using h2
        · exact Or.inr ⟨⟨m', List.mem_cons_of_mem _ hm', he⟩, hf1, hf2⟩
      · rintro (h | ⟨⟨m', hm', he⟩, hf1, hf2⟩)
        · exact Or.inl (List.mem_append_left _ h)
        · rcases List.mem_cons.mp hm' with rfl | hm'
          · exact Or.inl (List.mem_append_right _ (by simp [he]))
          · exact Or.inr ⟨⟨m', hm', he⟩, hf1, hf2⟩

theorem extractEmails_mem (html : String) (e : String) :
    e ∈ extractEmails html ↔
      (∃ m, m ∈ scanEmails html.toList ∧ asciiLower (String.mk m) = e) ∧
      isImageEmail e = false ∧ isExcludedDomain e = false := by
  obtain ⟨hnd, hmem⟩ :=
    cleanFold_spec (((scanEmails html.toList).map String.mk).dedup) [] (by simp)
  rw [extractEmails, hmem e]
  simp only [List.mem_dedup, List.mem_map, List.not_mem_nil, false_or]
  constructor
  · rintro ⟨⟨m', ⟨m, hm, rfl⟩, he⟩, hf⟩
    exact ⟨⟨m, hm, he⟩, hf⟩
  · rintro ⟨⟨m, hm, he⟩, hf⟩
    exact ⟨⟨String.mk m, ⟨m, hm, rfl⟩, he⟩, hf⟩

theorem extractEmails_nodup (html : String) : (extractEmails html).Nodup :=
  (cleanFold_spec (((scanEmails html.toList).map String.mk).dedup) [] (by simp)).1

/-- C7: `_extract_emails` returns exactly the distinct lower-cased
addresses produced by the email-regex scan of the input HTML, minus every
address ending in an image-file extension and every address whose domain
contains an entry of the fixed exclusion list; the result is a set
(duplicate-free), so repeated case-variants of one address collapse to a
single lower-case entry. -/
theorem extract_emails_contract (html : String) (e : String) :
    (e ∈ extractEmails html ↔
      (∃ m, m ∈ scanEmails html.toList ∧ asciiLower (String.mk m) = e) ∧
      isImageEmail e = false ∧ isExcludedDomain e = false) ∧
    (extractEmails html).Nodup ∧
    extractEmails "A@B.COM a@b.com A@b.Com" = ["a@b.com"] :=
  ⟨extractEmails_mem html e, extractEmails_nodup html, by decide⟩

/-- C10: email exclusion is substring containment on the domain, not
exact matching: an address whose domain merely contains an excluded-list
entry is dropped; in particular `user@mail.example.com` is dropped even
though its full domain `mail.example.com` is not itself in the list. -/
theorem excluded_domain_substring_drop (html e exc : String)
    (hexc : exc ∈ EXCLUDED_EMAIL_PATTERNS)
    (hsub : strContains (emailDomain e) exc = true) :
    e ∉ extractEmails html ∧
    emailDomain "user@mail.example.com" ∉ EXCLUDED_EMAIL_PATTERNS ∧
    extractEmails "user@mail.example.com" = [] := by
  refine ⟨?_, by decide, by decide⟩
  intro hmem
  have h := ((extractEmails_mem html e).mp hmem).2.2
  have hx : isExcludedDomain e = true := by
    rw [isExcludedDomain, List.any_eq_true]
    exact ⟨exc, hexc, hsub⟩
  rw [hx] at h
  cases h

/-- Witness for C10 at a concrete subdomain address. -/
theorem excluded_domain_substring_drop_witness :
    "example.com" ∈ EXCLUDED_EMAIL_PATTERNS ∧
    strContains (emailDomain "admin@sub.test.com") "test.com" = true ∧
    "admin@sub.test.com" ∉ extractEmails "write to admin@sub.test.com" :=
  ⟨by decide, by decide,
    (excluded_domain_substring_drop "write to admin@sub.test.com"
      "admin@sub.test.com" "test.com" (by decide) (by decide)).1⟩

/-! ## C9: CSV export percent cells (`export_csv`) -/

/-- Python truthiness of an optional float: `None` and `0.0` are falsy. -/
def ratTruthy : Option ℚ → Bool
  | none => false
  | some q => q != 0

/-- Python `f"{x * 100:.0f}"`: percent with zero decimals (the `f` format
rounds half-to-even). -/
def fmtPct (q : ℚ) : String :=
  toString (pyRoundInt (q * 100))

/-- Confidence % cell of the CSV export:
`f"{p.classification_confidence * 100:.0f}" if p.classification_confidence else ""`. -/
def confidenceCell (v : Option ℚ) : String :=
  if ratTruthy v then fmtPct (v.getD 0) else ""

/-- Location Score % cell of the CSV export:
`f"{p.location_score * 100:.0f}" if p.location_score else ""`. -/
def locationScoreCell (v : Option ℚ) : String :=
  if ratTruthy v then fmtPct (v.getD 0) else ""

/-- C9: a stored confidence (or composite score) of exactly `0.0` is
exported as the empty string, not as `"0"`: the formatting is guarded by
truthiness of the value rather than a null check, while any non-zero
stored value is rendered as a percentage. -/
theorem csv_zero_exported_blank :
    confidenceCell (some 0) = "" ∧ locationScoreCell (some 0) = "" ∧
    confidenceCell none = "" ∧ locationScoreCell none = "" ∧
    fmtPct 0 = "0" ∧
    confidenceCell (some (437/1000)) = "44" ∧
    locationScoreCell (some (1/2)) = "50" ∧
    (∀ q : ℚ, q ≠ 0 → confidenceCell (some q) = fmtPct q ∧
      locationScoreCell (some q) = fmtPct q) := by
  refine ⟨by decide, by decide, rfl, rfl, by decide, by decide, by decide, ?_⟩
  intro q hq
  constructor
  · simp [confidenceCell, ratTruthy, hq]
  · simp [locationScoreCell, ratTruthy, hq]

/-- Witness for C9 at a concrete non-zero stored value. -/
theorem csv_zero_exported_blank_witness :
    (1:ℚ)/4 ≠ 0 ∧ confidenceCell (some (1/4)) = fmtPct (1/4) ∧
      locationScoreCell (some (1/4)) = fmtPct (1/4) :=
  ⟨by norm_num, (csv_zero_exported_blank.2.2.2.2.2.2.2 (1/4) (by norm_num)).1,
    (csv_zero_exported_blank.2.2.2.2.2.2.2 (1/4) (by norm_num)).2⟩

/-! ## C2: provider retry policy (`tenacity` decorators) -/

/-- Exception kinds distinguished by the pipeline's retry predicates. -/
inductive HttpxErr
  | connectError
  | readTimeout
  | httpStatusError (code : ℕ)
deriving DecidableEq

/-- Retry predicate used on `_text_search_page` and `get_place_details`:
`retry_if_exception_type((httpx.HTTPStatusError, httpx.ConnectError))`. -/
def placesRetryOn : HttpxErr → Bool
  | .connectError => true
  | .readTimeout => false
  | .httpStatusError _ => true

/-- Retry predicate used on the enricher's `_fetch_page`:
`retry_if_exception_type((httpx.ConnectError, httpx.ReadTimeout))`. -/
def fetchPageRetryOn : HttpxErr → Bool
  | .connectError => true
  | .readTimeout => true
  | .httpStatusError _ => false

/-- Attempt cap of the provider-call decorators:
`stop_after_attempt(settings.enrichment_max_retries)` with the
configuration default `enrichment_max_retries = 3`. -/
def enrichmentMaxRetries : ℕ := 3

/-- Attempt cap of `_fetch_page`: `stop_after_attempt(2)`. -/
def fetchPageAttempts : ℕ := 2

/-- Tenacity `wait_exponential(multiplier, min, max)`: an exponentially
growing wait clamped into `[min, max]` (modelled from tenacity's
documented behaviour; `attempt` counts previous failures). -/
def waitExponential (multiplier mn mx : ℚ) (attempt : ℕ) : ℚ :=
  max mn (min mx (multiplier * 2 ^ attempt))

/-- One run of a function wrapped in
`retry(stop=stop_after_attempt(cap), retry=retry_if_exception_type(...), reraise=True)`:
`outcomes i` is the outcome of the `i`-th execution of the body and
`left` the number of attempts the stop condition still allows (the body
always runs at least once).  A failure is retried only when the retry
predicate accepts the exception and an attempt remains; otherwise the
exception is re-raised as-is.  Returns the final result and the number
of executions performed. -/
def tenacityGo {α : Type} (retryOn : HttpxErr → Bool)
    (outcomes : ℕ → Except HttpxErr α) : ℕ → ℕ → Except HttpxErr α × ℕ
  | 0, idx => (outcomes idx, idx + 1)
  | left + 1, idx =>
    match outcomes idx with
    | .ok a => (.ok a, idx + 1)
    | .error e =>
      if left = 0 then (.error e, idx + 1)
      else if retryOn e then tenacityGo retryOn outcomes left (idx + 1)
      else (.error e, idx + 1)

/-- A decorated call with attempt cap `cap`, starting at the first
execution. -/
def tenacityRun {α : Type} (retryOn : HttpxErr → Bool) (cap : ℕ)
    (outcomes : ℕ → Except HttpxErr α) : Except HttpxErr α × ℕ :=
  tenacityGo retryOn outcomes cap 0

theorem tenacityGo_execs {α : Type} (r : HttpxErr → Bool)
    (o : ℕ → Except HttpxErr α) :
    ∀ left idx, idx + 1 ≤ (tenacityGo r o left idx).2 ∧
      (tenacityGo r o left idx).2 ≤ idx + max 1 left := by
  intro left
  induction left with
  | zero =>
    intro idx
    simp [tenacityGo]
  | succ l ih =>
    intro idx
    simp only [tenacityGo]
    cases o idx with
    | ok a =>
      simp only
      constructor
      · omega
      · have : 1 ≤ max 1 (l + 1) := le_max_left _ _
        omega
    | error e =>
      simp only
      split_ifs with h1 h2
      · subst h1
        simp only
        constructor
        · omega
        · have : 1 ≤ max 1 1 := le_max_left _ _
          omega
      · obtain ⟨ha, hb⟩ := ih (idx + 1)
        have hl : 1 ≤ l := Nat.one_le_iff_ne_zero.mpr h1
        rw [Nat.max_eq_right hl] at hb
        rw [Nat.max_eq_right (by omega : 1 ≤ l + 1)]
        exact ⟨by omega, by omega⟩
      · constructor
        · omega
        · have : 1 ≤ max 1 (l + 1) := le_max_left _ _
          omega

/-- C2 (amended): the provider calls (`_text_search_page` and
`get_place_details`) retry connection errors and HTTP/API status errors
with exponential backoff up to the configured attempt cap
(`enrichment_max_retries`, default 3), while read-timeout errors
propagate immediately after a single execution with no retry; only the
enricher's homepage fetch retries exactly the transient
connect/read-timeout errors and never retries HTTP status errors. -/
theorem provider_retry_policy {α : Type} (outcomes : ℕ → Except HttpxErr α)
    (e : HttpxErr) (he : outcomes 0 = .error e) :
    placesRetryOn .readTimeout = false ∧
    placesRetryOn .connectError = true ∧
    (∀ c, placesRetryOn (.httpStatusError c) = true) ∧
    fetchPageRetryOn .connectError = true ∧
    fetchPageRetryOn .readTimeout = true ∧
    (∀ c, fetchPageRetryOn (.httpStatusError c) = false) ∧
    (placesRetryOn e = false →
      tenacityRun placesRetryOn enrichmentMaxRetries outcomes = (.error e, 1)) ∧
    (∀ cap, 1 ≤ (tenacityRun placesRetryOn cap outcomes).2 ∧
      (tenacityRun placesRetryOn cap outcomes).2 ≤ max 1 cap) ∧
    (∀ i j, i ≤ j →
      waitExponential 1 2 30 i ≤ waitExponential 1 2 30 j) := by
  refine ⟨rfl, rfl, fun c => rfl, rfl, rfl, fun c => rfl, ?_, ?_, ?_⟩
  · intro hnr
    simp [tenacityRun, tenacityGo, enrichmentMaxRetries, he, hnr]
  · intro cap
    have h := tenacityGo_execs placesRetryOn outcomes cap 0
    simpa [tenacityRun] using h
  · intro i j hij
    refine max_le_max le_rfl (min_le_min le_rfl ?_)
    have h2 : (1:ℚ) ≤ 2 := by norm_num
    have := pow_le_pow_right₀ h2 hij
    linarith

/-- Witness for C2 (amended) at a concrete failing outcome sequence. -/
theorem provider_retry_policy_witness :
    (fun _ => (.error .readTimeout : Except HttpxErr ℕ)) 0 =
      .error .readTimeout ∧
    tenacityRun placesRetryOn enrichmentMaxRetries
      (fun _ => (.error .readTimeout : Except HttpxErr ℕ)) =
      (.error .readTimeout, 1) :=
  ⟨rfl, (provider_retry_policy (fun _ => .error .readTimeout) .readTimeout
    rfl).2.2.2.2.2.2.1 rfl⟩

/-- Counterexample to C2 as stated: a transient read-timeout on the
provider call propagates immediately (one execution, no retry), while a
non-transient HTTP status error is retried and the call succeeds on its
second execution. -/
theorem provider_retry_policy_counterexample :
    tenacityRun placesRetryOn enrichmentMaxRetries
      (fun _ => (.error .readTimeout : Except HttpxErr ℕ)) =
      (.error .readTimeout, 1) ∧
    tenacityRun placesRetryOn enrichmentMaxRetries
      (fun n => if n = 0 then (.error (.httpStatusError 500) : Except HttpxErr ℕ)
                else .ok 42) = (.ok 42, 2) := by
  constructor
  · rfl
  · rfl

/-! ## C4: grid-search tiling (`GooglePlacesClient.grid_search`) -/

/-- Raw provider place object (Places API (New) JSON) restricted to the
fields the pipeline reads; nested `displayName`/`location`/opening-hours
objects are flattened to the accessed leaves and the unused
`addressComponents` payload is kept opaque. -/
structure RawRecord where
  id : Option String
  displayNameText : Option String
  formattedAddress : Option String
  latitude : Option ℚ
  longitude : Option ℚ
  rating : Option ℚ
  userRatingCount : Option ℤ
  nationalPhoneNumber : Option String
  websiteUri : Option String
  regularOpeningHours : Option OpeningHours
  addressComponents : Option String
  types : Option (List String)
  businessStatus : Option String
  priceLevel : Option String
deriving DecidableEq

/-- First-stage cell radius: `cell_radius_km = min(2.0, radius_km)`. -/
def cellRadiusKm0 (radiusKm : ℚ) : ℚ :=
  min 2 radiusKm

/-- Cells per axis:
`min(max(1, int(math.ceil(radius_km / cell_radius_km))), 5)`. -/
def cellsPerAxis (radiusKm : ℚ) : ℤ :=
  min (max 1 (qCeil (radiusKm / cellRadiusKm0 radiusKm))) 5

/-- Final per-tile radius: `cell_radius_km = radius_km / cells_per_axis`. -/
def cellRadiusKm (radiusKm : ℚ) : ℚ :=
  radiusKm / (cellsPerAxis radiusKm : ℚ)

/-- Request radius in meters: `int(cell_radius_km * 1000 * 1.3)` — the
per-tile radius inflated by 30 % and truncated to whole meters. -/
def cellRadiusM (radiusKm : ℚ) : ℤ :=
  pyInt (cellRadiusKm radiusKm * 1000 * (13/10))

/-- Grid tile centers: a `c × c` square of points spaced by the latitude
and longitude steps around the requested center.  The source computes
`lngStep` with `math.cos(math.radians(center_lat))`; that transcendental
factor enters only the coordinate values, never the tile count, so the
two steps are parameters here. -/
def gridCenters (centerLat centerLng latStep lngStep : ℚ) (c : ℕ) :
    List (ℚ × ℚ) :=
  (List.range c).flatMap (fun (row : ℕ) =>
    (List.range c).map (fun (col : ℕ) =>
      (centerLat + ((row : ℚ) - ((c : ℚ) - 1)/2) * latStep,
       centerLng + ((col : ℚ) - ((c : ℚ) - 1)/2) * lngStep)))

/-- Cross-tile deduplication loop of `grid_search`: walk the per-tile
result lists in order, keeping a record only when its external id is
non-empty and not seen before.  Returns the kept records together with
the seen-id list. -/
def gridDedup (tiles : List (List RawRecord)) :
    List RawRecord × List String :=
  tiles.foldl (fun acc tile =>
    tile.foldl (fun acc2 place =>
      let pid := place.id.getD ""
      if pid ≠ "" ∧ pid ∉ acc2.2 then (acc2.1 ++ [place], acc2.2 ++ [pid])
      else acc2) acc) ([], [])

/-- Final result list of `grid_search` over the given per-tile results. -/
def gridSearchResults (tiles : List (List RawRecord)) : List RawRecord :=
  (gridDedup tiles).1

theorem gridCenters_length (a b s t : ℚ) (c : ℕ) :
    (gridCenters a b s t c).length = c * c := by
  simp only [gridCenters, List.length_flatMap, Function.comp_def,
    List.length_map, List.length_range, List.map_const', List.sum_replicate,
    smul_eq_mul]

theorem gridDedup_inner (tile : List RawRecord) :
    ∀ acc : List RawRecord × List String,
    acc.1.map (fun r => r.id.getD "") = acc.2 → acc.2.Nodup →
    (tile.foldl (fun acc2 place =>
      let pid := place.id.getD ""
      if pid ≠ "" ∧ pid ∉ acc2.2 then (acc2.1 ++ [place], acc2.2 ++ [pid])
      else acc2) acc).1.map (fun r => r.id.getD "") =
      (tile.foldl (fun acc2 place =>
        let pid := place.id.getD ""
        if pid ≠ "" ∧ pid ∉ acc2.2 then (acc2.1 ++ [place], acc2.2 ++ [pid])
        else acc2) acc).2 ∧
    (tile.foldl (fun acc2 place =>
      let pid := place.id.getD ""
      if pid ≠ "" ∧ pid ∉ acc2.2 then (acc2.1 ++ [place], acc2.2 ++ [pid])
      else acc2) acc).2.Nodup := by
  induction tile with
  | nil => intro acc h1 h2; exact ⟨h1, h2⟩
  | cons place tile ih =>
    intro acc h1 h2
    simp only [List.foldl_cons]
    by_cases hc : place.id.getD "" ≠ "" ∧ place.id.getD "" ∉ acc.2
    · rw [if_pos hc]
      refine ih _ ?_ ?_
      · simp [h1]
      · simp [List.nodup_append, h2, hc.2]
    · rw [if_neg hc]
      exact ih acc h1 h2

theorem gridSearchResults_nodup (tiles : List (List RawRecord)) :
    ((gridSearchResults tiles).map (fun r => r.id.getD "")).Nodup := by
  suffices h : ∀ acc : List RawRecord × List String,
      acc.1.map (fun r => r.id.getD "") = acc.2 → acc.2.Nodup →
      (tiles.foldl (fun acc tile =>
        tile.foldl (fun acc2 place =>
          let pid := place.id.getD ""
          if pid ≠ "" ∧ pid ∉ acc2.2 then (acc2.1 ++ [place], acc2.2 ++ [pid])
          else acc2) acc) acc).1.map (fun r => r.id.getD "") =
        (tiles.foldl (fun acc tile =>
          tile.foldl (fun acc2 place =>
            let pid := place.id.getD ""
            if pid ≠ "" ∧ pid ∉ acc2.2 then (acc2.1 ++ [place], acc2.2 ++ [pid])
            else acc2) acc) acc).2 ∧
      (tiles.foldl (fun acc tile =>
        tile.foldl (fun acc2 place =>
          let pid := place.id.getD ""
          if pid ≠ "" ∧ pid ∉ acc2.2 then (acc2.1 ++ [place], acc2.2 ++ [pid])
          else acc2) acc) acc).2.Nodup by
    obtain ⟨h1, h2⟩ := h ([], []) rfl List.nodup_nil
    rw [gridSearchResults, gridDedup, h1]
    exact h2
  induction tiles with
  | nil => intro acc h1 h2; exact ⟨h1, h2⟩
  | cons tile tiles ih =>
    intro acc h1 h2
    simp only [List.foldl_cons]
    obtain ⟨h1a, h2a⟩ := gridDedup_inner tile acc h1 h2
    exact ih _ h1a h2a

theorem cellsPerAxis_bounds (radiusKm : ℚ) :
    1 ≤ cellsPerAxis radiusKm ∧ cellsPerAxis radiusKm ≤ 5 := by
  constructor
  · exact le_min (le_max_left _ _) (by norm_num)
  · exact min_le_right _ _

/-- C4 (amended): every `grid_search` invocation with positive radius
produces `cellsPerAxis²  ≤ 25` tile sub-searches, each tile's request
radius in meters is the 30 %-inflated per-tile radius
`cellRadiusKm * 1000 * 1.3` truncated to an integer (`int(...)`, exact
for `radius_km = 10`, where it equals 2600 m), and the returned list
never contains two records with the same external id. -/
theorem grid_search_tiling (radiusKm : ℚ) (hr : 0 < radiusKm) :
    (cellsPerAxis radiusKm) ^ 2 ≤ 25 ∧
    (∀ cLat cLng latStep lngStep,
      (gridCenters cLat cLng latStep lngStep
        (cellsPerAxis radiusKm).toNat).length ≤ 25) ∧
    ((cellRadiusM radiusKm : ℚ) ≤ cellRadiusKm radiusKm * 1000 * (13/10) ∧
      cellRadiusKm radiusKm * 1000 * (13/10) < (cellRadiusM radiusKm : ℚ) + 1) ∧
    cellRadiusM 10 = 2600 ∧
    (∀ tiles, ((gridSearchResults tiles).map (fun r => r.id.getD "")).Nodup) := by
  obtain ⟨hc1, hc5⟩ := cellsPerAxis_bounds radiusKm
  have hx : (0:ℚ) < cellRadiusKm radiusKm * 1000 * (13/10) := by
    have hcz : (0:ℤ) < cellsPerAxis radiusKm := by omega
    have hcq : (0:ℚ) < (cellsPerAxis radiusKm : ℚ) := by exact_mod_cast hcz
    have hpos : 0 < cellRadiusKm radiusKm := div_pos hr hcq
    nlinarith [hpos]
  refine ⟨?_, ?_, ?_, by decide, gridSearchResults_nodup⟩
  · nlinarith [hc1, hc5]
  · intro cLat cLng latStep lngStep
    rw [gridCenters_length]
    have h5 : (cellsPerAxis radiusKm).toNat ≤ 5 := by omega
    calc (cellsPerAxis radiusKm).toNat * (cellsPerAxis radiusKm).toNat
        ≤ 5 * 5 := Nat.mul_le_mul h5 h5
      _ = 25 := rfl
  · rw [cellRadiusM, pyInt, if_pos (le_of_lt hx), qFloor_eq]
    exact ⟨Int.floor_le _, Int.lt_floor_add_one _⟩

/-- Witness for C4 (amended) at the claim's highlighted radius of 10 km. -/
theorem grid_search_tiling_witness :
    (0:ℚ) < 10 ∧ (cellsPerAxis 10) ^ 2 ≤ 25 ∧ cellRadiusM 10 = 2600 :=
  ⟨by norm_num, (grid_search_tiling 10 (by norm_num)).1,
    (grid_search_tiling 10 (by norm_num)).2.2.2.1⟩

/-- Counterexample to C4 as stated: at `radius_km = 1.234` the request
radius sent is 1604 m, while the per-tile radius inflated by exactly
30 % is 1604.2 m — the source truncates with `int(...)`. -/
theorem grid_search_radius_counterexample :
    (cellRadiusM (1234/1000) : ℚ) ≠
      cellRadiusKm (1234/1000) * 1000 * (13/10) ∧
    cellRadiusM (1234/1000) = 1604 ∧
    cellRadiusKm (1234/1000) * 1000 * (13/10) = 16042/10 := by
  refine ⟨by decide, by decide, by decide⟩

/-! ## C5: heatmap cell-count clamp (`HeatmapEngine.compute_heatmap`) -/

/-- Step computation of `compute_heatmap`: the initial step counts are
`lat_steps = ceil((lat_max - lat_min) / grid_size)` and analogously for
longitude; when their product exceeds 10000 the grid size is enlarged to
`max((lat_max - lat_min) / 100, (lng_max - lng_min) / 100)` and both
counts are recomputed.  Returns the final
`(lat_steps, lng_steps, grid_size)`. -/
def heatmapSteps (latMin latMax lngMin lngMax gridSize : ℚ) : ℤ × ℤ × ℚ :=
  let latSteps := qCeil ((latMax - latMin) / gridSize)
  let lngSteps := qCeil ((lngMax - lngMin) / gridSize)
  if latSteps * lngSteps > 10000 then
    let g := max ((latMax - latMin) / 100) ((lngMax - lngMin) / 100)
    (qCeil ((latMax - latMin) / g), qCeil ((lngMax - lngMin) / g), g)
  else (latSteps, lngSteps, gridSize)

/-- SW-corner coordinates of the cells produced by the
`for i in range(lat_steps)` / `for j in range(lng_steps)` loops (Python
`range(n)` is empty for `n ≤ 0`). -/
def heatmapCells (latMin latMax lngMin lngMax gridSize : ℚ) : List (ℚ × ℚ) :=
  (List.range (heatmapSteps latMin latMax lngMin lngMax gridSize).1.toNat).flatMap
    (fun (i : ℕ) =>
      (List.range (heatmapSteps latMin latMax lngMin lngMax gridSize).2.1.toNat).map
        (fun (j : ℕ) =>
          (latMin + (i : ℚ) * (heatmapSteps latMin latMax lngMin lngMax gridSize).2.2,
           lngMin + (j : ℚ) * (heatmapSteps latMin latMax lngMin lngMax gridSize).2.2)))

theorem heatmapCells_length (a b c d e : ℚ) :
    (heatmapCells a b c d e).length =
      (heatmapSteps a b c d e).1.toNat * (heatmapSteps a b c d e).2.1.toNat := by
  simp only [heatmapCells, List.length_flatMap, Function.comp_def,
    List.length_map, List.length_range, List.map_const', List.sum_replicate,
    smul_eq_mul]

/-- C5 (amended): for every non-inverted bounding box
(`lat_min ≤ lat_max`, `lng_min ≤ lng_max`) and positive grid size whose
initial `ceil`-step product exceeds 10000, `compute_heatmap` enlarges the
grid size to `max((lat_max - lat_min)/100, (lng_max - lng_min)/100)`,
recomputes both step counts, and the number of cells produced is at most
10000. -/
theorem heatmap_cell_cap (latMin latMax lngMin lngMax gridSize : ℚ)
    (hlat : latMin ≤ latMax) (hlng : lngMin ≤ lngMax) (hg : 0 < gridSize)
    (hbig : 10000 < qCeil ((latMax - latMin) / gridSize) *
      qCeil ((lngMax - lngMin) / gridSize)) :
    (heatmapSteps latMin latMax lngMin lngMax gridSize).2.2 =
      max ((latMax - latMin) / 100) ((lngMax - lngMin) / 100) ∧
    (heatmapSteps latMin latMax lngMin lngMax gridSize).1 =
      qCeil ((latMax - latMin) /
        max ((latMax - latMin) / 100) ((lngMax - lngMin) / 100)) ∧
    (heatmapSteps latMin latMax lngMin lngMax gridSize).2.1 =
      qCeil ((lngMax - lngMin) /
        max ((latMax - latMin) / 100) ((lngMax - lngMin) / 100)) ∧
    (heatmapCells latMin latMax lngMin lngMax gridSize).length ≤ 10000 := by
  have hd1 : 0 ≤ latMax - latMin := by linarith
  have hd2 : 0 ≤ lngMax - lngMin := by linarith
  have hs1 : 0 ≤ qCeil ((latMax - latMin) / gridSize) := by
    rw [qCeil_eq]
    exact Int.ceil_nonneg (by positivity)
  have hs2 : 0 ≤ qCeil ((lngMax - lngMin) / gridSize) := by
    rw [qCeil_eq]
    exact Int.ceil_nonneg (by positivity)
  have h1 : 1 ≤ qCeil ((latMax - latMin) / gridSize) := by nlinarith
  have hd1pos : 0 < latMax - latMin := by
    have hq : 0 < (latMax - latMin) / gridSize := by
      rw [← Int.ceil_pos, ← qCeil_eq]
      omega
    rcases div_pos_iff.mp hq with ⟨h, _⟩ | ⟨_, h2⟩
    · exact h
    · linarith
  have hgpos : 0 < max ((latMax - latMin) / 100) ((lngMax - lngMin) / 100) :=
    lt_of_lt_of_le (div_pos hd1pos (by norm_num)) (le_max_left _ _)
  have hunfold : heatmapSteps latMin latMax lngMin lngMax gridSize =
      (qCeil ((latMax - latMin) /
        max ((latMax - latMin) / 100) ((lngMax - lngMin) / 100)),
       qCeil ((lngMax - lngMin) /
        max ((latMax - latMin) / 100) ((lngMax - lngMin) / 100)),
       max ((latMax - latMin) / 100) ((lngMax - lngMin) / 100)) := by
    rw [heatmapSteps]
    dsimp only
    rw [if_pos hbig]
  have hb1 : (latMax - latMin) /
      max ((latMax - latMin) / 100) ((lngMax - lngMin) / 100) ≤ 100 := by
    rw [div_le_iff₀ hgpos]
    have := le_max_left ((latMax - latMin) / 100) ((lngMax - lngMin) / 100)
    linarith
  have hb2 : (lngMax - lngMin) /
      max ((latMax - latMin) / 100) ((lngMax - lngMin) / 100) ≤ 100 := by
    rw [div_le_iff₀ hgpos]
    have := le_max_right ((latMax - latMin) / 100) ((lngMax - lngMin) / 100)
    linarith
  have hc1 : qCeil ((latMax - latMin) /
      max ((latMax - latMin) / 100) ((lngMax - lngMin) / 100)) ≤ 100 := by
    rw [qCeil_eq]
    exact Int.ceil_le.mpr (by exact_mod_cast hb1)
  have hc2 : qCeil ((lngMax - lngMin) /
      max ((latMax - latMin) / 100) ((lngMax - lngMin) / 100)) ≤ 100 := by
    rw [qCeil_eq]
    exact Int.ceil_le.mpr (by exact_mod_cast hb2)
  refine ⟨by rw [hunfold], by rw [hunfold], by rw [hunfold], ?_⟩
  rw [heatmapCells_length, hunfold]
  have ht1 : (qCeil ((latMax - latMin) /
      max ((latMax - latMin) / 100) ((lngMax - lngMin) / 100))).toNat ≤ 100 := by
    omega
  have ht2 : (qCeil ((lngMax - lngMin) /
      max ((latMax - latMin) / 100) ((lngMax - lngMin) / 100))).toNat ≤ 100 := by
    omega
  calc (qCeil ((latMax - latMin) /
        max ((latMax - latMin) / 100) ((lngMax - lngMin) / 100))).toNat *
      (qCeil ((lngMax - lngMin) /
        max ((latMax - latMin) / 100) ((lngMax - lngMin) / 100))).toNat
      ≤ 100 * 100 := Nat.mul_le_mul ht1 ht2
    _ = 10000 := rfl

/-- Witness for C5 (amended) at a 2° × 1° box with a 0.01° grid. -/
theorem heatmap_cell_cap_witness :
    ((0:ℚ) ≤ 2 ∧ (0:ℚ) ≤ 1 ∧ (0:ℚ) < 1/100 ∧
      10000 < qCeil (((2:ℚ) - 0) / (1/100)) * qCeil (((1:ℚ) - 0) / (1/100))) ∧
    (heatmapCells 0 2 0 1 (1/100)).length ≤ 10000 :=
  ⟨⟨by norm_num, by norm_num, by norm_num, by decide⟩,
    (heatmap_cell_cap 0 2 0 1 (1/100) (by norm_num) (by norm_num)
      (by norm_num) (by decide)).2.2.2⟩

/-- Counterexample to C5 as stated: with the inverted bounding box
`lat_min = 0, lat_max = -2, lng_min = 0, lng_max = -1` and grid size
`0.01`, the initial step product is `(-200) * (-100) = 20000 > 10000`,
the clamp branch runs, and the recomputed grid produces 20000 cells —
more than 10000. -/
theorem heatmap_cell_cap_counterexample :
    10000 < qCeil (((-2:ℚ) - 0) / (1/100)) * qCeil (((-1:ℚ) - 0) / (1/100)) ∧
    (0:ℚ) < 1/100 ∧
    heatmapSteps 0 (-2) 0 (-1) (1/100) = (200, 100, -(1/100)) ∧
    (heatmapCells 0 (-2) 0 (-1) (1/100)).length = 20000 := by
  refine ⟨by decide, by norm_num, by decide, ?_⟩
  rw [heatmapCells_length]
  have h : heatmapSteps 0 (-2) 0 (-1) (1/100) = (200, 100, -(1/100)) := by decide
  rw [h]
  rfl

/-! ## C8: demand sub-score (`ScoringEngine._demand_score`) -/

/-- Python `place.user_ratings_total or 0` (identity on a stored count,
`0` when absent; a stored `0` is falsy and also yields `0`). -/
def reviewsOrZero : Option ℤ → ℤ
  | none => 0
  | some n => n

/-- Python `round(x, 4)` on a real value.  Mathlib's `round` rounds
half-integers up while Python rounds them to even, but the demand scores
never hit a tie (their only rational values are `0`, `1/4` and `1`), so
the two agree on every value this development evaluates. -/
noncomputable def roundTo4 (x : ℝ) : ℝ :=
  (round (x * 10000) : ℤ) / 10000

/-- Embedded `_demand_score`: `0` when the review count is absent or
`≤ 0`, else `round(min(1.0, log10(reviews + 1) / 4.0), 4)`. -/
noncomputable def demandScore (urt : Option ℤ) : ℝ :=
  if reviewsOrZero urt ≤ 0 then 0
  else roundTo4 (min 1 (Real.logb 10 ((reviewsOrZero urt : ℝ) + 1) / 4))

theorem round_mono {x y : ℝ} (h : x ≤ y) : round x ≤ round y := by
  rw [round_eq, round_eq]
  exact Int.floor_mono (by linarith)

theorem roundTo4_mono {x y : ℝ} (h : x ≤ y) : roundTo4 x ≤ roundTo4 y := by
  rw [roundTo4, roundTo4]
  have hr : round (x * 10000) ≤ round (y * 10000) := round_mono (by linarith)
  have : ((round (x * 10000) : ℤ) : ℝ) ≤ ((round (y * 10000) : ℤ) : ℝ) := by
    exact_mod_cast hr
  linarith

theorem roundTo4_nonneg {x : ℝ} (h : 0 ≤ x) : 0 ≤ roundTo4 x := by
  have h0 : roundTo4 0 = 0 := by
    rw [roundTo4]
    norm_num
  rw [← h0]
  exact roundTo4_mono h

theorem roundTo4_le_one {x : ℝ} (h : x ≤ 1) : roundTo4 x ≤ 1 := by
  have h1 : roundTo4 1 = 1 := by
    rw [roundTo4]
    norm_num
  rw [← h1]
  exact roundTo4_mono h

theorem demandScore_of_pos {n : ℤ} (h : 0 < n) :
    demandScore (some n) =
      roundTo4 (min 1 (Real.logb 10 ((n : ℝ) + 1) / 4)) := by
  rw [demandScore, reviewsOrZero, if_neg (by omega)]

theorem demandScore_nonneg (urt : Option ℤ) : 0 ≤ demandScore urt := by
  rw [demandScore]
  split_ifs with h
  · exact le_refl 0
  · apply roundTo4_nonneg
    have hn : 1 ≤ reviewsOrZero urt := by omega
    have hx : (1:ℝ) ≤ (reviewsOrZero urt : ℝ) + 1 := by
      have : (1:ℝ) ≤ (reviewsOrZero urt : ℝ) := by exact_mod_cast hn
      linarith
    have hlogb : 0 ≤ Real.logb 10 ((reviewsOrZero urt : ℝ) + 1) :=
      Real.logb_nonneg (by norm_num) hx
    exact le_min (by norm_num) (by linarith)

theorem demandScore_le_one (urt : Option ℤ) : demandScore urt ≤ 1 := by
  rw [demandScore]
  split_ifs with h
  · norm_num
  · exact roundTo4_le_one (min_le_left _ _)

theorem demandScore_monotone {n1 n2 : ℤ} (h : n1 ≤ n2) :
    demandScore (some n1) ≤ demandScore (some n2) := by
  by_cases h1 : n1 ≤ 0
  · rw [show demandScore (some n1) = 0 by rw [demandScore, reviewsOrZero, if_pos h1]]
    exact demandScore_nonneg (some n2)
  · push_neg at h1
    have h2 : 0 < n2 := lt_of_lt_of_le h1 h
    rw [demandScore_of_pos h1, demandScore_of_pos h2]
    apply roundTo4_mono
    apply min_le_min le_rfl
    apply div_le_div_of_nonneg_right ?_ (by norm_num)
    apply Real.logb_le_logb_of_le (by norm_num)
    · positivity
    · have : (n1 : ℝ) ≤ (n2 : ℝ) := by exact_mod_cast h
      linarith

theorem six_pow_mod_five (b : ℕ) : 6 ^ b % 5 = 1 := by
  have h := Nat.pow_mod 6 b 5
  simpa using h

theorem logb_ten_six_irrational : Irrational (Real.logb 10 6) := by
  rintro ⟨q, hq⟩
  have hpos : (0:ℝ) < Real.logb 10 6 := Real.logb_pos (by norm_num) (by norm_num)
  have hqpos : 0 < q := by
    have h : (0:ℝ) < (q:ℝ) := by rw [hq]; exact hpos
    exact_mod_cast h
  have hrpow : (10:ℝ) ^ ((q:ℝ)) = 6 := by
    rw [hq]
    exact Real.rpow_logb (by norm_num) (by norm_num) (by norm_num)
  have h2 : (10:ℝ) ^ ((q:ℝ) * (q.den:ℝ)) = (6:ℝ) ^ (q.den:ℕ) := by
    rw [Real.rpow_mul (by norm_num : (0:ℝ) ≤ 10), hrpow, Real.rpow_natCast]
  have hqd : (q:ℝ) * (q.den:ℝ) = (q.num:ℝ) := by
    rw [Rat.cast_def]
    have hd : ((q.den:ℝ)) ≠ 0 := by
      exact_mod_cast q.den_nz
    field_simp
  rw [hqd] at h2
  have hnum : 0 < q.num := Rat.num_pos.mpr hqpos
  have hna : (q.num:ℝ) = ((q.num.toNat : ℕ) : ℝ) := by
    exact_mod_cast (Int.toNat_of_nonneg hnum.le).symm
  rw [hna, Real.rpow_natCast] at h2
  have hnat : (10:ℕ) ^ (q.num.toNat) = 6 ^ q.den := by exact_mod_cast h2
  have hmod : (10:ℕ) ^ (q.num.toNat) % 5 = 0 := by
    have hdvd : (5:ℕ) ∣ 10 ^ q.num.toNat :=
      dvd_pow (by norm_num) (by omega)
    omega
  rw [hnat, six_pow_mod_five] at hmod
  cases hmod

/-- C8 (amended): the demand sub-score equals
`round(min(1, log10(reviews + 1) / 4), 4)`, is `0` when the review count
is absent or `≤ 0`, is monotonically non-decreasing as a function of the
review count, and always lies in `[0, 1]`. -/
theorem demand_score_contract (urt : Option ℤ) (n m : ℤ) (hnm : n ≤ m) :
    demandScore none = 0 ∧
    (∀ k : ℤ, k ≤ 0 → demandScore (some k) = 0) ∧
    (∀ k : ℤ, 0 < k → demandScore (some k) =
      roundTo4 (min 1 (Real.logb 10 ((k : ℝ) + 1) / 4))) ∧
    demandScore (some n) ≤ demandScore (some m) ∧
    0 ≤ demandScore urt ∧ demandScore urt ≤ 1 := by
  refine ⟨?_, ?_, ?_, demandScore_monotone hnm, demandScore_nonneg urt,
    demandScore_le_one urt⟩
  · rw [demandScore, reviewsOrZero, if_pos le_rfl]
  · intro k hk
    rw [demandScore, reviewsOrZero, if_pos hk]
  · intro k hk
    exact demandScore_of_pos hk

/-- Witness for C8 (amended) at concrete review counts. -/
theorem demand_score_contract_witness :
    (3:ℤ) ≤ 7 ∧ demandScore (some 3) ≤ demandScore (some 7) ∧
      0 ≤ demandScore (some 500) ∧ demandScore (some 500) ≤ 1 :=
  ⟨by norm_num, (demand_score_contract (some 500) 3 7 (by norm_num)).2.2.2.1,
    (demand_score_contract (some 500) 3 7 (by norm_num)).2.2.2.2.1,
    (demand_score_contract (some 500) 3 7 (by norm_num)).2.2.2.2.2⟩

/-- Counterexample to C8 as stated: at 5 reviews the stored demand score
is the 4-decimal rounding of `log10(6)/4`, which cannot equal the exact
`min(1, log10(6)/4)` because `log10 6` is irrational while every rounded
value is rational. -/
theorem demand_score_rounding_counterexample :
    demandScore (some 5) ≠ min 1 (Real.logb 10 ((5:ℝ) + 1) / 4) := by
  intro heq
  have h5 : demandScore (some 5) =
      roundTo4 (min 1 (Real.logb 10 ((5:ℝ) + 1) / 4)) :=
    demandScore_of_pos (by norm_num)
  have hlt : Real.logb 10 6 < 1 := by
    have h := Real.logb_lt_logb (b := 10) (by norm_num)
      (by norm_num : (0:ℝ) < 6) (by norm_num : (6:ℝ) < 10)
    rwa [Real.logb_self_eq_one (by norm_num)] at h
  have hnonneg : 0 ≤ Real.logb 10 6 := Real.logb_nonneg (by norm_num) (by norm_num)
  have h56 : ((5:ℝ) + 1) = 6 := by norm_num
  have hmin : min 1 (Real.logb 10 ((5:ℝ) + 1) / 4) = Real.logb 10 6 / 4 := by
    rw [h56]
    exact min_eq_right (by linarith)
  have hirr : Irrational (Real.logb 10 6 / 4) := by
    have h4 : ((4:ℕ):ℝ) = (4:ℝ) := by norm_num
    rw [← h4]
    exact logb_ten_six_irrational.div_nat (by norm_num)
  rw [h5, hmin] at heq
  apply hirr
  refine ⟨(round (Real.logb 10 6 / 4 * 10000) : ℚ) / 10000, ?_⟩
  conv_rhs => rw [← heq, roundTo4]
  push_cast
  ring

/-! ## C3: enrichment persistence (`WebsiteEnricher.enrich_place`) -/

/-- One `EnrichmentResult` row (`place_enrichments` table): exactly the
fields `_save_enrichment` overwrites. -/
structure EnrichmentData where
  homepage_status_code : Option ℤ
  homepage_title : Option String
  contact_page_url : Option String
  robots_txt_allows : Option Bool
  enrichment_error : Option String
deriving DecidableEq

/-- Pending (session) contents of the two enrichment tables. -/
structure EnrichStore where
  enrichments : List (ℕ × EnrichmentData)
  emails : List (ℕ × String × String)
deriving DecidableEq

/-- Session plus durable state: `db.commit()` copies the pending store
into the committed snapshot. -/
structure EnrichDB where
  pending : EnrichStore
  committed : EnrichStore
deriving DecidableEq

/-- First row for the listing, as `scalar_one_or_none` returns it. -/
def lookupEnrich : List (ℕ × EnrichmentData) → ℕ → Option EnrichmentData
  | [], _ => none
  | kv :: rest, pid => if kv.1 = pid then some kv.2 else lookupEnrich rest pid

/-- Upsert of the 1:1 enrichment row: overwrite every field when a row
for the listing exists, insert otherwise. -/
def upsertEnrichment (l : List (ℕ × EnrichmentData)) (pid : ℕ)
    (d : EnrichmentData) : List (ℕ × EnrichmentData) :=
  if l.any (fun kv => kv.1 = pid) then
    l.map (fun kv => if kv.1 = pid then (pid, d) else kv)
  else l ++ [(pid, d)]

/-- Insert only the new `(listing, email)` pairs. -/
def addEmails (l : List (ℕ × String × String)) (pid : ℕ)
    (es : List (String × String)) : List (ℕ × String × String) :=
  es.foldl (fun acc e =>
    if acc.any (fun t => t.1 = pid ∧ t.2.1 = e.1) then acc
    else acc ++ [(pid, e.1, e.2)]) l

/-- Embedded `_save_enrichment`: upserts the enrichment row and adds new
email pairs, all in the pending session state. -/
def saveEnrichment (db : EnrichDB) (pid : ℕ) (d : EnrichmentData)
    (es : List (String × String)) : EnrichDB :=
  { db with pending :=
      { enrichments := upsertEnrichment db.pending.enrichments pid d,
        emails := addEmails db.pending.emails pid es } }

/-- Embedded `db.commit()`. -/
def commitDB (db : EnrichDB) : EnrichDB :=
  { pending := db.pending, committed := db.pending }

/-- Outcome of one `_fetch_page` call (after its internal retry): either
a status code with a body, or a raised exception message. -/
inductive FetchOutcome
  | ok (status : ℤ) (body : String)
  | exn (msg : String)

/-- Environment of one `enrich_place` run: the robots verdict
(`_check_robots` swallows its own errors and returns a boolean), the
homepage and contact-page fetch outcomes, the BeautifulSoup-based title
and contact-link discovery oracles, and the current timestamp. -/
structure EnrichEnv where
  robotsAllowed : Bool
  homepage : FetchOutcome
  contactFetch : FetchOutcome
  titleOf : String → Option String
  contactPageOf : String → Option String
  now : ℕ

/-- The merged `all_emails` mapping of `enrich_place`: homepage emails
first (source `"homepage"`), then contact-page emails not already
present (source `"contact_page"`). -/
def mergeEmails (hp cp : List String) : List (String × String) :=
  cp.foldl (fun acc e =>
    if (acc.map Prod.fst).contains e then acc
    else acc ++ [(e, "contact_page")])
    (hp.map (fun e => (e, "homepage")))

/-- Result of `enrich_place`: the database state, the (possibly stamped)
listing, and the URLs passed to `_fetch_page`, in order. -/
structure EnrichResult where
  db : EnrichDB
  place : Place
  fetched : List String

/-- Embedded `enrich_place`.  Mirrors the source control flow exactly:
return unchanged without a truthy website; on robots-disallowed record
the error, save and stamp, returning *before* any commit; otherwise
record the homepage outcome (status code, title, extracted emails), the
best-effort contact page, then save, stamp and commit. -/
def enrichPlace (env : EnrichEnv) (db : EnrichDB) (p : Place) : EnrichResult :=
  if strTruthy p.website = false then ⟨db, p, []⟩
  else
    let w := orEmpty p.website
    let base : EnrichmentData := ⟨none, none, none, some env.robotsAllowed, none⟩
    if env.robotsAllowed = false then
      ⟨saveEnrichment db p.id
          { base with enrichment_error := some "Blocked by robots.txt" } [],
        { p with enriched_at := some env.now }, []⟩
    else
      match env.homepage with
      | .exn msg =>
        ⟨commitDB (saveEnrichment db p.id
            { base with enrichment_error := some (msg.take 500) } []),
          { p with enriched_at := some env.now }, [w]⟩
      | .ok status html =>
        let d1 := { base with homepage_status_code := some status }
        if status = 200 ∧ html ≠ "" then
          let d2 := { d1 with homepage_title := env.titleOf html }
          let hp := extractEmails html
          match env.contactPageOf html with
          | none =>
            ⟨commitDB (saveEnrichment db p.id d2 (mergeEmails hp [])),
              { p with enriched_at := some env.now }, [w]⟩
          | some curl =>
            let d3 := { d2 with contact_page_url := some curl }
            match env.contactFetch with
            | .exn _ =>
              ⟨commitDB (saveEnrichment db p.id d3 (mergeEmails hp [])),
                { p with enriched_at := some env.now }, [w, curl]⟩
            | .ok cs chtml =>
              if cs = 200 ∧ chtml ≠ "" then
                ⟨commitDB (saveEnrichment db p.id d3
                    (mergeEmails hp (extractEmails chtml))),
                  { p with enriched_at := some env.now }, [w, curl]⟩
              else
                ⟨commitDB (saveEnrichment db p.id d3 (mergeEmails hp [])),
                  { p with enriched_at := some env.now }, [w, curl]⟩
        else
          ⟨commitDB (saveEnrichment db p.id d1 []),
            { p with enriched_at := some env.now }, [w]⟩

theorem lookupEnrich_append_single (pid : ℕ) (d : EnrichmentData) :
    ∀ l : List (ℕ × EnrichmentData), l.any (fun kv => kv.1 = pid) = false →
    lookupEnrich (l ++ [(pid, d)]) pid = some d := by
  intro l
  induction l with
  | nil => intro _; simp [lookupEnrich]
  | cons kv rest ih =>
    intro h
    simp only [List.any_cons, Bool.or_eq_false_iff] at h
    have hk : kv.1 ≠ pid := by simpa using h.1
    simp only [List.cons_append, lookupEnrich, if_neg hk]
    exact ih h.2

theorem lookupEnrich_map_set (pid : ℕ) (d : EnrichmentData) :
    ∀ l : List (ℕ × EnrichmentData),
    lookupEnrich (l.map (fun kv => if kv.1 = pid then (pid, d) else kv)) pid =
      if l.any (fun kv => kv.1 = pid) then some d else lookupEnrich [] pid := by
  intro l
  induction l with
  | nil => simp
  | cons kv rest ih =>
    by_cases hk : kv.1 = pid
    · simp [lookupEnrich, hk]
    · simp only [List.map_cons, if_neg hk, lookupEnrich, List.any_cons]
      rw [ih]
      have hd : (decide (kv.1 = pid)) = false := decide_eq_false hk
      rw [hd, Bool.false_or]
      simp [lookupEnrich]

theorem lookupEnrich_upsert (l : List (ℕ × EnrichmentData)) (pid : ℕ)
    (d : EnrichmentData) :
    lookupEnrich (upsertEnrichment l pid d) pid = some d := by
  rw [upsertEnrichment]
  split_ifs with h
  · rw [lookupEnrich_map_set, if_pos h]
  · exact lookupEnrich_append_single pid d l (by rwa [Bool.not_eq_true] at h)

/-- C3 (amended): for every listing with a truthy website URL,
`enrich_place` upserts the `EnrichmentResult` record and stamps the
listing's enriched timestamp on every attempt; on the success and
captured-failure paths it additionally commits, while in the
robots-disallowed case the record carries
`enrichment_error = "Blocked by robots.txt"`, no homepage fetch is made,
and the method returns before any commit, leaving the committed state
unchanged. -/
theorem enrich_place_persistence (env : EnrichEnv) (db : EnrichDB) (p : Place)
    (hw : strTruthy p.website = true) :
    (lookupEnrich (enrichPlace env db p).db.pending.enrichments p.id).isSome =
      true ∧
    (enrichPlace env db p).place.enriched_at = some env.now ∧
    (env.robotsAllowed = false →
      lookupEnrich (enrichPlace env db p).db.pending.enrichments p.id =
        some ⟨none, none, none, some false, some "Blocked by robots.txt"⟩ ∧
      (enrichPlace env db p).fetched = [] ∧
      (enrichPlace env db p).db.committed = db.committed) ∧
    (env.robotsAllowed = true →
      (enrichPlace env db p).db.committed = (enrichPlace env db p).db.pending) := by
  have hsome : ∀ (l : List (ℕ × EnrichmentData)) (d : EnrichmentData),
      (lookupEnrich (upsertEnrichment l p.id d) p.id).isSome = true := by
    intro l d
    rw [lookupEnrich_upsert]
    rfl
  have hwne : ¬ strTruthy p.website = false := by simp [hw]
  obtain ⟨robots, homepage, contactFetch, titleOf, contactPageOf, now⟩ := env
  cases robots with
  | false =>
    simp only [enrichPlace, if_neg hwne, if_pos rfl]
    refine ⟨hsome _ _, rfl, ?_, ?_⟩
    · intro _
      refine ⟨?_, rfl, rfl⟩
      exact lookupEnrich_upsert _ _ _
    · intro h
      cases h
  | true =>
    simp only [enrichPlace, if_neg hwne,
      if_neg (by simp : ¬ (true = false))]
    cases homepage with
    | exn msg =>
      dsimp only
      refine ⟨hsome _ _, rfl, ?_, ?_⟩
      · intro h
        cases h
      · intro _
        rfl
    | ok status html =>
      dsimp only
      by_cases hs : status = 200 ∧ html ≠ ""
      · rw [if_pos hs]
        cases hcp : contactPageOf html with
        | none =>
          dsimp only
          refine ⟨hsome _ _, rfl, ?_, ?_⟩
          · intro h
            cases h
          · intro _
            rfl
        | some curl =>
          dsimp only
          cases contactFetch with
          | exn msg =>
            dsimp only
            refine ⟨hsome _ _, rfl, ?_, ?_⟩
            · intro h
              cases h
            · intro _
              rfl
          | ok cs chtml =>
            dsimp only
            by_cases hcs : cs = 200 ∧ chtml ≠ ""
            · rw [if_pos hcs]
              refine ⟨hsome _ _, rfl, ?_, ?_⟩
              · intro h
                cases h
              · intro _
                rfl
            · rw [if_neg hcs]
              refine ⟨hsome _ _, rfl, ?_, ?_⟩
              · intro h
                cases h
              · intro _
                rfl
      · rw [if_neg hs]
        dsimp only
        refine ⟨hsome _ _, rfl, ?_, ?_⟩
        · intro h
          cases h
        · intro _
          rfl

/-- Robots-disallowed environment used only to exhibit the missing
commit concretely. -/
def blockedEnv : EnrichEnv :=
  ⟨false, .exn "", .exn "", fun _ => none, fun _ => none, 7⟩

/-- Robots-allowed environment whose homepage fetch raises. -/
def allowedEnv : EnrichEnv :=
  ⟨true, .exn "boom", .exn "", fun _ => none, fun _ => none, 7⟩

/-- An empty enrichment database. -/
def emptyEnrichDB : EnrichDB :=
  ⟨⟨[], []⟩, ⟨[], []⟩⟩

/-- A listing with a website URL. -/
def sitePlace : Place :=
  { emptyPlace with id := 1, website := some "https://shop.example" }

/-- Witness for C3 (amended): the allowed path with a captured fetch
failure commits its pending state. -/
theorem enrich_place_persistence_witness :
    strTruthy sitePlace.website = true ∧
    (lookupEnrich
      (enrichPlace allowedEnv emptyEnrichDB sitePlace).db.pending.enrichments
      sitePlace.id).isSome = true ∧
    (enrichPlace allowedEnv emptyEnrichDB sitePlace).db.committed =
      (enrichPlace allowedEnv emptyEnrichDB sitePlace).db.pending :=
  ⟨by decide,
    (enrich_place_persistence allowedEnv emptyEnrichDB sitePlace (by decide)).1,
    (enrich_place_persistence allowedEnv emptyEnrichDB sitePlace
      (by decide)).2.2.2 rfl⟩

/-- Counterexample to C3 as stated: in the robots-disallowed case the
record is upserted in the session and the listing stamped, but nothing
is committed — on a fresh database the committed store stays empty. -/
theorem enrich_place_commit_counterexample :
    (enrichPlace blockedEnv emptyEnrichDB sitePlace).db.pending.enrichments =
      [(1, ⟨none, none, none, some false, some "Blocked by robots.txt"⟩)] ∧
    (enrichPlace blockedEnv emptyEnrichDB sitePlace).db.committed.enrichments =
      [] ∧
    (enrichPlace blockedEnv emptyEnrichDB sitePlace).place.enriched_at =
      some 7 ∧
    (enrichPlace blockedEnv emptyEnrichDB sitePlace).fetched = [] := by
  refine ⟨rfl, rfl, rfl, rfl⟩

/-! ## C6: ingestion upsert idempotence (`upsert_places`) -/

/-- Price-level enum mapping `_PRICE_LEVEL_MAP`. -/
def PRICE_LEVEL_MAP : List (String × ℤ) :=
  [("PRICE_LEVEL_FREE", 0), ("PRICE_LEVEL_INEXPENSIVE", 1),
   ("PRICE_LEVEL_MODERATE", 2), ("PRICE_LEVEL_EXPENSIVE", 3),
   ("PRICE_LEVEL_VERY_EXPENSIVE", 4)]

/-- Python `_PRICE_LEVEL_MAP.get(price_str) if price_str else None`. -/
def normPriceLevel : Option String → Option ℤ
  | none => none
  | some s =>
    if s = "" then none
    else (PRICE_LEVEL_MAP.find? (fun kv => kv.1 = s)).map Prod.snd

/-- Flat record produced by `_normalize_place`. -/
structure NormPlace where
  place_id : String
  name : String
  formatted_address : Option String
  latitude : Option ℚ
  longitude : Option ℚ
  rating : Option ℚ
  user_ratings_total : Option ℤ
  formatted_phone_number : Option String
  website : Option String
  opening_hours : Option OpeningHours
  address_components : Option String
  types : Option (List String)
  business_status : Option String
  price_level : Option ℤ
deriving DecidableEq

/-- Embedded `_normalize_place`: default-empty id and display name,
pass-through of the flat fields, flattened opening hours (built only for
a truthy payload; a present-but-empty JSON object is treated as present
here), and the price-level enum mapping. -/
def normalizePlace (raw : RawRecord) : NormPlace :=
  { place_id := raw.id.getD ""
    name := raw.displayNameText.getD ""
    formatted_address := raw.formattedAddress
    latitude := raw.latitude
    longitude := raw.longitude
    rating := raw.rating
    user_ratings_total := raw.userRatingCount
    formatted_phone_number := raw.nationalPhoneNumber
    website := raw.websiteUri
    opening_hours := raw.regularOpeningHours.map (fun o => ⟨o.open_now, o.weekday_text⟩)
    address_components := raw.addressComponents
    types := raw.types
    business_status := raw.businessStatus
    price_level := normPriceLevel raw.priceLevel }

/-- Listings storage with an autoincrement id counter. -/
structure PlacesDB where
  rows : List Place
  nextId : ℕ
deriving DecidableEq

/-- The `INSERT … ON CONFLICT (place_id) DO UPDATE` statement built by
`upsert_places`: on conflict it updates only the mutable fields and the
update timestamp of the existing row (`place_id`, `search_query`,
`search_location` and `created_at` are not in the `set_` clause); on
insert all values plus both timestamps are written.  Returns the
database and the row id (`RETURNING id`). -/
def upsertStmt (db : PlacesDB) (gpId : String) (n : NormPlace)
    (searchQuery searchLocation : Option String) (now : ℕ) : PlacesDB × ℕ :=
  match db.rows.find? (fun r => r.place_id = gpId) with
  | some r =>
    ({ db with rows := db.rows.map (fun row =>
        if row.place_id = gpId then
          { row with
            name := some n.name,
            formatted_address := n.formatted_address,
            latitude := n.latitude,
            longitude := n.longitude,
            rating := n.rating,
            user_ratings_total := n.user_ratings_total,
            formatted_phone_number := n.formatted_phone_number,
            website := n.website,
            opening_hours := n.opening_hours,
            address_components := n.address_components,
            types := n.types,
            business_status := n.business_status,
            price_level := n.price_level,
            updated_at := some now }
        else row) }, r.id)
  | none =>
    ({ rows := db.rows ++ [{ emptyPlace with
        id := db.nextId,
        place_id := gpId,
        name := some n.name,
        formatted_address := n.formatted_address,
        latitude := n.latitude,
        longitude := n.longitude,
        rating := n.rating,
        user_ratings_total := n.user_ratings_total,
        formatted_phone_number := n.formatted_phone_number,
        website := n.website,
        opening_hours := n.opening_hours,
        address_components := n.address_components,
        types := n.types,
        business_status := n.business_status,
        price_level := n.price_level,
        search_query := searchQuery,
        search_location := searchLocation,
        created_at := some now,
        updated_at := some now }],
       nextId := db.nextId + 1 }, db.nextId)

/-- Embedded `upsert_places` over a batch of raw records: a record
without an external id is skipped; an id already stored reuses the
existing listing unchanged (no re-fetch, no statement); otherwise the
details oracle is consulted (`none` models a failed, empty or
cache-short-circuited fetch, upon which the search record itself is the
fallback), the record is normalized and the upsert statement runs.
Returns the final database with the involved row ids (for the re-read). -/
def upsertPlaces (detailsOf : String → Option RawRecord) (db : PlacesDB)
    (raws : List RawRecord) (searchQuery searchLocation : Option String)
    (now : ℕ) : PlacesDB × List ℕ :=
  raws.foldl (fun acc raw =>
    let gpId := raw.id.getD ""
    if gpId = "" then acc
    else
      match acc.1.rows.find? (fun r => r.place_id = gpId) with
      | some r => (acc.1, acc.2 ++ [r.id])
      | none =>
        let details := (detailsOf gpId).getD raw
        let res := upsertStmt acc.1 gpId (normalizePlace details)
          searchQuery searchLocation now
        (res.1, acc.2 ++ [res.2])) (db, [])

theorem upsertPlaces_skip (detailsOf : String → Option RawRecord)
    (db : PlacesDB) (raw : RawRecord) (sq sl : Option String) (now : ℕ)
    (hg : raw.id.getD "" = "") :
    upsertPlaces detailsOf db [raw] sq sl now = (db, []) := by
  simp [upsertPlaces, hg]

theorem upsertPlaces_reuse (detailsOf : String → Option RawRecord)
    (db : PlacesDB) (raw : RawRecord) (sq sl : Option String) (now : ℕ)
    (r : Place) (hg : ¬ raw.id.getD "" = "")
    (hf : db.rows.find? (fun x => x.place_id = raw.id.getD "") = some r) :
    upsertPlaces detailsOf db [raw] sq sl now = (db, [r.id]) := by
  simp only [upsertPlaces, List.foldl_cons, List.foldl_nil]
  rw [if_neg hg, hf]
  simp

theorem upsertPlaces_fresh (detailsOf : String → Option RawRecord)
    (db : PlacesDB) (raw : RawRecord) (sq sl : Option String) (now : ℕ)
    (hg : ¬ raw.id.getD "" = "")
    (hf : db.rows.find? (fun x => x.place_id = raw.id.getD "") = none) :
    upsertPlaces detailsOf db [raw] sq sl now =
      ((upsertStmt db (raw.id.getD "")
          (normalizePlace ((detailsOf (raw.id.getD "")).getD raw)) sq sl now).1,
        [(upsertStmt db (raw.id.getD "")
          (normalizePlace ((detailsOf (raw.id.getD "")).getD raw)) sq sl now).2]) := by
  simp only [upsertPlaces, List.foldl_cons, List.foldl_nil]
  rw [if_neg hg, hf]
  simp

theorem upsertStmt_find_isSome (db : PlacesDB) (gpId : String) (n : NormPlace)
    (sq sl : Option String) (now : ℕ) :
    ((upsertStmt db gpId n sq sl now).1.rows.find?
      (fun r => r.place_id = gpId)).isSome := by
  rw [List.find?_isSome]
  cases hf : db.rows.find? (fun r => r.place_id = gpId) with
  | some r =>
    have hmem := List.mem_of_find?_eq_some hf
    have hp : r.place_id = gpId := by simpa using List.find?_some hf
    rw [upsertStmt, hf]
    dsimp only
    refine ⟨_, List.mem_map_of_mem _ hmem, ?_⟩
    simp [hp]
  | none =>
    rw [upsertStmt, hf]
    dsimp only
    refine ⟨_, List.mem_append_right _ (List.mem_singleton_self _), ?_⟩
    simp

theorem upsertPlaces_single_covers (detailsOf : String → Option RawRecord)
    (db : PlacesDB) (raw : RawRecord) (sq sl : Option String) (now : ℕ)
    (hg : ¬ raw.id.getD "" = "") :
    ((upsertPlaces detailsOf db [raw] sq sl now).1.rows.find?
      (fun r => r.place_id = raw.id.getD "")).isSome := by
  cases hf : db.rows.find? (fun r => r.place_id = raw.id.getD "") with
  | some r =>
    rw [upsertPlaces_reuse detailsOf db raw sq sl now r hg hf]
    simp [hf]
  | none =>
    rw [upsertPlaces_fresh detailsOf db raw sq sl now hg hf]
    exact upsertStmt_find_isSome db (raw.id.getD "") _ sq sl now

/-- C6: re-ingesting a raw record whose external id already has a stored
listing leaves the database unchanged (no second row, creation timestamp
untouched); a second ingestion of the same record is the identity on the
database whatever the details oracle, the provenance or the clock; the
conflict branch of the upsert statement changes only mutable fields and
the update timestamp (row id, external id, creation timestamp and the
provenance fields are preserved, and no row is added or removed); and
ingestion preserves uniqueness of the stored external ids. -/
theorem upsert_places_idempotent
    (detailsOf detailsOf2 : String → Option RawRecord) (db : PlacesDB)
    (raw : RawRecord) (sq sl sq2 sl2 : Option String) (now now2 : ℕ)
    (gpId : String) (n : NormPlace)
    (hex : (db.rows.find? (fun r => r.place_id = raw.id.getD "")).isSome) :
    (upsertPlaces detailsOf db [raw] sq sl now).1 = db ∧
    (∀ db2 : PlacesDB, (upsertPlaces detailsOf2
        (upsertPlaces detailsOf db2 [raw] sq sl now).1 [raw] sq2 sl2 now2).1 =
      (upsertPlaces detailsOf db2 [raw] sq sl now).1) ∧
    ((db.rows.find? (fun r => r.place_id = gpId)).isSome →
      (upsertStmt db gpId n sq sl now).1.rows.map
        (fun r => (r.id, r.place_id, r.created_at, r.search_query,
          r.search_location)) =
      db.rows.map (fun r => (r.id, r.place_id, r.created_at, r.search_query,
        r.search_location)) ∧
      (upsertStmt db gpId n sq sl now).1.rows.length = db.rows.length) ∧
    (∀ db2 : PlacesDB, (db2.rows.map (fun r => r.place_id)).Nodup →
      ((upsertPlaces detailsOf db2 [raw] sq sl now).1.rows.map
        (fun r => r.place_id)).Nodup) := by
  refine ⟨?_, ?_, ?_, ?_⟩
  · by_cases hg : raw.id.getD "" = ""
    · rw [upsertPlaces_skip detailsOf db raw sq sl now hg]
    · obtain ⟨r, hf⟩ := Option.isSome_iff_exists.mp hex
      rw [upsertPlaces_reuse detailsOf db raw sq sl now r hg hf]
  · intro db2
    by_cases hg : raw.id.getD "" = ""
    · rw [upsertPlaces_skip detailsOf db2 raw sq sl now hg,
        upsertPlaces_skip detailsOf2 db2 raw sq2 sl2 now2 hg]
    · have hcov := upsertPlaces_single_covers detailsOf db2 raw sq sl now hg
      obtain ⟨r2, hf2⟩ := Option.isSome_iff_exists.mp hcov
      rw [upsertPlaces_reuse detailsOf2 _ raw sq2 sl2 now2 r2 hg hf2]
  · intro h
    obtain ⟨r, hf⟩ := Option.isSome_iff_exists.mp h
    rw [upsertStmt, hf]
    dsimp only
    constructor
    · rw [List.map_map]
      apply List.map_congr_left
      intro row _
      dsimp only [Function.comp]
      split_ifs with hp
      · rfl
      · rfl
    · rw [List.length_map]
  · intro db2 hnd
    by_cases hg : raw.id.getD "" = ""
    · rw [upsertPlaces_skip detailsOf db2 raw sq sl now hg]
      exact hnd
    · cases hf : db2.rows.find? (fun r => r.place_id = raw.id.getD "") with
      | some r =>
        rw [upsertPlaces_reuse detailsOf db2 raw sq sl now r hg hf]
        exact hnd
      | none =>
        rw [upsertPlaces_fresh detailsOf db2 raw sq sl now hg hf]
        rw [upsertStmt, hf]
        dsimp only
        rw [List.map_append]
        rw [List.nodup_append]
        refine ⟨hnd, List.nodup_singleton _, ?_⟩
        intro x hx
        simp only [List.map_cons, List.map_nil, List.mem_singleton]
        intro hx2
        obtain ⟨row, hrow, hpid⟩ := List.mem_map.mp hx
        have := List.find?_eq_none.mp hf row hrow
        apply this
        simp only [hx2] at hpid
        simp [hpid]

/-- A raw provider record with external id `"gp1"`. -/
def rawA : RawRecord :=
  ⟨some "gp1", some "Shop A", none, none, none, none, none, none, none,
    none, none, none, none, none⟩

/-- A database already storing a listing for `"gp1"` created at time 5. -/
def dbA : PlacesDB :=
  ⟨[{ emptyPlace with id := 1, place_id := "gp1", created_at := some 5 }], 2⟩

/-- Witness for C6: re-ingesting `"gp1"` into a database that already
stores it leaves the database unchanged. -/
theorem upsert_places_idempotent_witness :
    (dbA.rows.find? (fun r => r.place_id = rawA.id.getD "")).isSome = true ∧
    (upsertPlaces (fun _ => none) dbA [rawA] none none 9).1 = dbA :=
  ⟨by decide,
    (upsert_places_idempotent (fun _ => none) (fun _ => none) dbA rawA
      none none none none 9 11 "gp1" (normalizePlace rawA) (by decide)).1⟩
